import Mathlib

/-!
Shallow embedding of the stackus/envelope type registry (registry.go,
registry_options.go, serdes) for checking the specification claims.

Modelling decisions, each tied to the Go source:

* A Go value passed as `any` is either the nil interface or a concrete
  struct value carrying its base (non-pointer) type descriptor, a flag for
  pointer-vs-value form, and its field contents (`GoVal`).
* A type descriptor (`GoType`) records what the key deriver can observe:
  the `reflect` string name of the base type, the optional `EnvelopeKey`
  and `EnvelopeKeyPrefix` methods together with their receiver form
  (a value-receiver method is in the method set of both `T` and a
  pointer-to-`T`; a pointer-receiver method only in the method set of the
  pointer form), and the zero value of its fields.
* Go panics are modelled as a third result alternative (`Res.panicked`):
  `getKey(nil)` panics in Go because `reflect.TypeOf(nil)` is nil and
  `t.Kind()` dereferences it, so the model sends the nil value to `none`.
* Byte blobs (`Bytes`) are a free datatype over what the two default
  codecs produce: `jsonOf` for the JSON payload encoding of struct fields,
  `protoOf` for the protobuf encoding of the two-field `EnvelopeMsg`,
  `empty` for the empty blob (which protobuf decodes successfully, leaving
  every field of the message unset), and `raw` for any other blob.
-/

set_option autoImplicit false

namespace EnvelopeRepo

/-- An optional key-capability method on a type: the string it returns and
whether it was declared with a value receiver (and is therefore in the
method set of both forms of the type). -/
structure Meth where
  ret : String
  valRecv : Bool
deriving DecidableEq, Repr

/-- A concrete Go struct type as the registry observes it: its
`reflect.Type.String()` name (of the base, non-pointer type), the optional
`EnvelopeKey` and `EnvelopeKeyPrefix` methods, and the field contents of
its zero value. -/
structure GoType where
  name : String
  envKey : Option Meth
  envKeyPfx : Option Meth
  zero : List (String × String)
deriving DecidableEq, Repr

/-- A Go `any` value: the nil interface, or a concrete value of base type
`t`, in pointer form iff `isPtr`, with the given field contents. -/
inductive GoVal where
  | nil : GoVal
  | mk (t : GoType) (isPtr : Bool) (fields : List (String × String)) : GoVal
deriving DecidableEq, Repr

/-- Whether `reflect.TypeOf(v).Kind() == reflect.Ptr`. -/
def GoVal.isPtrForm : GoVal → Bool
  | .nil => false
  | .mk _ p _ => p

/-- The result of a Go interface type assertion `v.(interface{ M() string })`
for a capability method `m` of the base type, on a value in pointer form
iff `isPtr`: it succeeds exactly when the method is in the method set of
that form. -/
def methodVisible (isPtr : Bool) (m : Option Meth) : Option String :=
  match m with
  | none => none
  | some m => if isPtr || m.valRecv then some m.ret else none

/-- The key computed by `getKey` (registry.go) for a non-nil value of base
type `t` in pointer form iff `isPtr`: the prefix assertion runs first, the
`EnvelopeKey` assertion returns its result verbatim when it succeeds, and
otherwise the key is the prefix (empty when absent) concatenated with the
name of the base type (`t.Elem()` having removed one level of pointer). -/
def keyOf (t : GoType) (isPtr : Bool) : String :=
  let pfx := match methodVisible isPtr t.envKeyPfx with
    | some p => p
    | none => ""
  match methodVisible isPtr t.envKey with
  | some k => k
  | none => pfx ++ t.name

/-- `getKey` from registry.go. On the nil interface both type assertions
fail, `reflect.TypeOf(v)` is nil, and `t.Kind()` panics: the model returns
`none` for the panic. On every concrete value it returns `keyOf`. -/
def getKey : GoVal → Option String
  | .nil => none
  | .mk t isPtr _ => some (keyOf t isPtr)

/-- The typed errors of the package (errors.go): `ErrUnregisteredKey`,
`ErrReregisteredKey`, `ErrFactoryReturnsNil`,
`ErrFactoryDoesNotReturnPointer`, plus an injected-codec failure carrying
the message of the underlying error, which registry.go returns unchanged. -/
inductive GoErr where
  | unregisteredKey (key : String)
  | reregisteredKey (key : String)
  | factoryReturnsNil (key : String)
  | factoryDoesNotReturnPointer (key : String)
  | serdeFail (msg : String)
deriving DecidableEq, Repr

/-- The outcome of a registry operation: a normal result, a returned Go
error, or a runtime panic. -/
inductive Res (α : Type) where
  | ok (a : α)
  | err (e : GoErr)
  | panicked
deriving DecidableEq, Repr

/-- A factory stored in the registry table: either the closure
`func() any { return reflect.New(t).Interface() }` built by `Register`,
or a user-supplied function handed to `RegisterFactory`, modelled as the
constant function returning `v`. -/
inductive Factory where
  | reflectNew (t : GoType)
  | user (v : GoVal)
deriving DecidableEq, Repr

/-- Invoking a factory. `reflect.New(t).Interface()` yields a pointer to a
fresh zero value of the base type `t`; a user factory yields its value. -/
def Factory.invoke : Factory → GoVal
  | .reflectNew t => .mk t true t.zero
  | .user v => v

/-- Byte blobs, as a free datatype over what the codecs of the package
produce: the JSON encoding of struct fields, the JSON null, the protobuf
encoding of the two-field envelope message, the empty blob, and arbitrary
other bytes. -/
inductive Bytes where
  | jsonOf (fields : List (String × String)) : Bytes
  | jsonNull : Bytes
  | protoOf (key : Option String) (payload : Bytes) : Bytes
  | empty : Bytes
  | raw (n : Nat) : Bytes
deriving DecidableEq, Repr

/-- The wire record `EnvelopeMsg` (generated protobuf message): an optional
`Key *string` and `Payload []byte`. A freshly allocated message has both
fields unset. -/
structure EnvelopeMsg where
  key : Option String
  payload : Bytes
deriving DecidableEq, Repr

/-- The payload `Serde` interface specialised to Go values: `Serialize`
produces bytes and `Deserialize` populates a target instance, returning
the populated instance in place of Go mutation. -/
structure PayloadSerde where
  ser : GoVal → Except String Bytes
  de : Bytes → GoVal → Except String GoVal

/-- The envelope `Serde` as used by the registry, operating on the
two-field `EnvelopeMsg` record. -/
structure EnvSerde where
  ser : EnvelopeMsg → Except String Bytes
  de : Bytes → Except String EnvelopeMsg

/-- `JsonSerde` on struct values: `json.Marshal` encodes the fields of the
value (and encodes the nil interface as the JSON null), and
`json.Unmarshal` of a JSON object into a (pointer to a) struct sets its
fields, of JSON null leaves the target unchanged, and fails on any blob
that is not JSON or on a nil target. -/
def JsonSerde : PayloadSerde where
  ser := fun v =>
    match v with
    | .nil => .ok .jsonNull
    | .mk _ _ fields => .ok (.jsonOf fields)
  de := fun b v =>
    match b, v with
    | .jsonOf fields, .mk t p _ => .ok (.mk t p fields)
    | .jsonNull, .mk t p fields => .ok (.mk t p fields)
    | _, _ => .error "json unmarshal error"

/-- `ProtoSerde` on the `EnvelopeMsg` message: `proto.Marshal` encodes the
two fields; `proto.Unmarshal` decodes that encoding, decodes the empty
blob into a message with every field unset, and fails on other blobs. -/
def ProtoSerde : EnvSerde where
  ser := fun m => .ok (.protoOf m.key m.payload)
  de := fun b =>
    match b with
    | .protoOf k p => .ok ⟨k, p⟩
    | .empty => .ok ⟨none, .empty⟩
    | _ => .error "proto unmarshal error"

/-- The `registry` struct: the payload serde, the envelope serde, and the
key-to-factory table, modelled as an association list in insertion
order. -/
structure Registry where
  serde : PayloadSerde
  envelopeSerde : EnvSerde
  factories : List (String × Factory)

/-- `NewRegistry()` with no options: empty table, JSON payload serde,
protobuf envelope serde. -/
def NewRegistry : Registry where
  serde := JsonSerde
  envelopeSerde := ProtoSerde
  factories := []

/-- The unexported `registry.register`: fail with `ErrReregisteredKey` when
the key is already present, otherwise insert the pair. -/
def Registry.register (r : Registry) (key : String) (fn : Factory) :
    Except GoErr Registry :=
  match r.factories.lookup key with
  | some _ => .error (.reregisteredKey key)
  | none => .ok { r with factories := r.factories ++ [(key, fn)] }

/-- `registry.Register`: for each value derive its key (panicking on nil),
capture the base type `t` (`Elem()` of a pointer type), and insert the
closure `reflect.New(t)` factory; stop at the first error, keeping the
insertions already made. -/
def Registry.Register (r : Registry) : List GoVal → Registry × Res Unit
  | [] => (r, .ok ())
  | .nil :: _ => (r, .panicked)
  | .mk t isPtr _ :: vs =>
    match r.register (keyOf t isPtr) (.reflectNew t) with
    | .error e => (r, .err e)
    | .ok r2 => r2.Register vs

/-- `registry.RegisterFactory`: invoke each factory once; fail with
`ErrFactoryReturnsNil` (empty key) on a nil sample, derive the key, fail
with `ErrFactoryDoesNotReturnPointer` on a non-pointer sample, otherwise
insert the factory itself; stop at the first error. -/
def Registry.RegisterFactory (r : Registry) : List Factory → Registry × Res Unit
  | [] => (r, .ok ())
  | fn :: fns =>
    match fn.invoke with
    | .nil => (r, .err (.factoryReturnsNil ""))
    | .mk t isPtr _ =>
      match isPtr with
      | false => (r, .err (.factoryDoesNotReturnPointer (keyOf t false)))
      | true =>
        match r.register (keyOf t true) fn with
        | .error e => (r, .err e)
        | .ok r2 => r2.RegisterFactory fns

/-- The `envelope` struct returned by `Serialize` and `Deserialize`, with
its `Key()`, `Payload()` and `Bytes()` accessors as fields. -/
structure EnvRec where
  key : String
  payload : GoVal
  data : Bytes
deriving DecidableEq, Repr

/-- `registry.Serialize`: derive the key (panicking on nil), fail with
`ErrUnregisteredKey` when it is not in the table, run the payload serde,
wrap key and payload bytes in an `EnvelopeMsg`, run the envelope serde,
and return the envelope record. -/
def Registry.Serialize (r : Registry) (v : GoVal) : Res EnvRec :=
  match getKey v with
  | none => .panicked
  | some key =>
    match r.factories.lookup key with
    | none => .err (.unregisteredKey key)
    | some _ =>
      match r.serde.ser v with
      | .error e => .err (.serdeFail e)
      | .ok data =>
        match r.envelopeSerde.ser ⟨some key, data⟩ with
        | .error e => .err (.serdeFail e)
        | .ok wire => .ok ⟨key, v, wire⟩

/-- `registry.Deserialize`: decode the blob into a fresh `EnvelopeMsg`;
then `key := *msg.Key` panics when the decoded message has no key; look up
the factory, failing with `ErrUnregisteredKey`; invoke it and populate the
fresh instance with the payload serde. -/
def Registry.Deserialize (r : Registry) (data : Bytes) : Res EnvRec :=
  match r.envelopeSerde.de data with
  | .error e => .err (.serdeFail e)
  | .ok msg =>
    match msg.key with
    | none => .panicked
    | some key =>
      match r.factories.lookup key with
      | none => .err (.unregisteredKey key)
      | some fn =>
        match r.serde.de msg.payload fn.invoke with
        | .error e => .err (.serdeFail e)
        | .ok v => .ok ⟨key, v, data⟩

/-- `registry.IsRegistered`: derive the key (panicking on nil) and report
table membership. -/
def Registry.IsRegistered (r : Registry) (v : GoVal) : Res Bool :=
  match getKey v with
  | none => .panicked
  | some key => .ok (r.factories.lookup key).isSome

/-- `registry.Build`: look up the factory, failing with
`ErrUnregisteredKey`, and invoke it. -/
def Registry.Build (r : Registry) (key : String) : Except GoErr GoVal :=
  match r.factories.lookup key with
  | none => .error (.unregisteredKey key)
  | some fn => .ok fn.invoke

/-- The keys of the registry table, in insertion order. -/
def keysOf (r : Registry) : List String := r.factories.map Prod.fst

theorem lookup_append_self (l : List (String × Factory)) (k : String) (f : Factory)
    (h : l.lookup k = none) : (l ++ [(k, f)]).lookup k = some f := by
  induction l with
  | nil => simp [List.lookup]
  | cons p tl ih =>
    obtain ⟨a, b⟩ := p
    rw [List.lookup_cons] at h
    rw [List.cons_append, List.lookup_cons]
    cases hk : (k == a) with
    | true => rw [hk] at h; exact absurd h (by simp)
    | false => rw [hk] at h; exact ih h

theorem not_mem_of_lookup_none (l : List (String × Factory)) (k : String)
    (h : l.lookup k = none) : k ∉ l.map Prod.fst := by
  induction l with
  | nil => simp
  | cons p tl ih =>
    obtain ⟨a, b⟩ := p
    rw [List.lookup_cons] at h
    cases hk : (k == a) with
    | true => rw [hk] at h; exact absurd h (by simp)
    | false =>
      rw [hk] at h
      simp only [List.map_cons, List.mem_cons]
      rintro (h1 | h2)
      · rw [h1] at hk; simp at hk
      · exact ih h h2

theorem mem_of_lookup_some (l : List (String × Factory)) (k : String) (f : Factory)
    (h : l.lookup k = some f) : k ∈ l.map Prod.fst := by
  induction l with
  | nil => simp [List.lookup] at h
  | cons p tl ih =>
    obtain ⟨a, b⟩ := p
    rw [List.lookup_cons] at h
    simp only [List.map_cons, List.mem_cons]
    cases hk : (k == a) with
    | true => left; exact (eq_of_beq hk)
    | false => rw [hk] at h; right; exact ih h

theorem register_ok_elim (r : Registry) (k : String) (fn : Factory) (r2 : Registry)
    (h : r.register k fn = .ok r2) :
    r.factories.lookup k = none ∧
      r2 = { r with factories := r.factories ++ [(k, fn)] } := by
  unfold Registry.register at h
  cases hl : r.factories.lookup k with
  | some f => rw [hl] at h; exact absurd h (by simp)
  | none => rw [hl] at h; simp at h; exact ⟨rfl, h.symm⟩

theorem Register_append (us : List GoVal) : ∀ (r r1 : Registry) (vs : List GoVal),
    r.Register us = (r1, .ok ()) → r.Register (us ++ vs) = r1.Register vs := by
  induction us with
  | nil =>
    intro r r1 vs h
    simp [Registry.Register] at h
    simp [h]
  | cons v tl ih =>
    intro r r1 vs h
    cases v with
    | nil => simp [Registry.Register] at h
    | mk t isPtr flds =>
      cases hreg : r.register (keyOf t isPtr) (.reflectNew t) with
      | error e => simp [Registry.Register, hreg] at h
      | ok r2 =>
        simp only [Registry.Register, List.cons_append, hreg] at h ⊢
        exact ih r2 r1 vs h


theorem RegisterFactory_append (gs : List Factory) : ∀ (r r1 : Registry) (hs : List Factory),
    r.RegisterFactory gs = (r1, .ok ()) →
      r.RegisterFactory (gs ++ hs) = r1.RegisterFactory hs := by
  induction gs with
  | nil =>
    intro r r1 hs h
    simp [Registry.RegisterFactory] at h
    simp [h]
  | cons g tl ih =>
    intro r r1 hs h
    cases hg : g.invoke with
    | nil => simp [Registry.RegisterFactory, hg] at h
    | mk t isPtr flds =>
      cases isPtr with
      | false => simp [Registry.RegisterFactory, hg] at h
      | true =>
        cases hreg : r.register (keyOf t true) g with
        | error e => simp [Registry.RegisterFactory, hg, hreg] at h
        | ok r2 =>
          simp only [Registry.RegisterFactory, List.cons_append, hg, hreg] at h ⊢
          exact ih r2 r1 hs h

theorem nodup_snoc (l : List String) (k : String) (hl : l.Nodup) (hk : k ∉ l) :
    (l ++ [k]).Nodup := by
  simp [List.nodup_append, hl, hk]

theorem register_preserves_nodup (r : Registry) (k : String) (fn : Factory) (r2 : Registry)
    (h : r.register k fn = .ok r2) (hnd : (keysOf r).Nodup) : (keysOf r2).Nodup := by
  obtain ⟨hnone, hr2⟩ := register_ok_elim r k fn r2 h
  subst hr2
  simpa [keysOf] using
    nodup_snoc (keysOf r) k hnd (not_mem_of_lookup_none r.factories k hnone)

theorem Register_preserves_nodup (vs : List GoVal) :
    ∀ (r r1 : Registry) (res : Res Unit),
      r.Register vs = (r1, res) → (keysOf r).Nodup → (keysOf r1).Nodup := by
  induction vs with
  | nil =>
    intro r r1 res h hnd
    simp [Registry.Register] at h
    rw [← h.1]; exact hnd
  | cons v tl ih =>
    intro r r1 res h hnd
    cases v with
    | nil =>
      simp [Registry.Register] at h
      rw [← h.1]; exact hnd
    | mk t isPtr flds =>
      cases hreg : r.register (keyOf t isPtr) (.reflectNew t) with
      | error e =>
        simp [Registry.Register, hreg] at h; rw [← h.1]; exact hnd
      | ok r2 =>
        simp only [Registry.Register, hreg] at h
        exact ih r2 r1 res h (register_preserves_nodup r _ _ r2 hreg hnd)

theorem RegisterFactory_preserves_nodup (gs : List Factory) :
    ∀ (r r1 : Registry) (res : Res Unit),
      r.RegisterFactory gs = (r1, res) → (keysOf r).Nodup → (keysOf r1).Nodup := by
  induction gs with
  | nil =>
    intro r r1 res h hnd
    simp [Registry.RegisterFactory] at h
    rw [← h.1]; exact hnd
  | cons g tl ih =>
    intro r r1 res h hnd
    cases hg : g.invoke with
    | nil => simp [Registry.RegisterFactory, hg] at h; rw [← h.1]; exact hnd
    | mk t isPtr flds =>
      cases isPtr with
      | false => simp [Registry.RegisterFactory, hg] at h; rw [← h.1]; exact hnd
      | true =>
        cases hreg : r.register (keyOf t true) g with
        | error e => simp [Registry.RegisterFactory, hg, hreg] at h; rw [← h.1]; exact hnd
        | ok r2 =>
          simp only [Registry.RegisterFactory, hg, hreg] at h
          exact ih r2 r1 res h (register_preserves_nodup r _ _ r2 hreg hnd)

theorem methodVisible_of_valRecv (b : Bool) (m : Meth) (h : m.valRecv = true) :
    methodVisible b (some m) = some m.ret := by
  cases b <;> simp [methodVisible, h]

/-- The test type `Test` of registry_test.go: no key capabilities, one
string field, in package envelope_test. -/
def testT : GoType := ⟨"envelope_test.Test", none, none, [("Test", "")]⟩

/-- The test type `KeyedTest` of registry_test.go with an additional
value-receiver prefix capability, to exercise override precedence. -/
def keyedT : GoType :=
  ⟨"envelope_test.KeyedTest", some ⟨"test", true⟩, some ⟨"prefix.", true⟩, [("Test", "")]⟩

/-- A type whose `EnvelopeKey` override is declared on the pointer
receiver only, so the capability is absent from the method set of the
value form. -/
def ptrRecvT : GoType := ⟨"pkg.PtrKeyed", some ⟨"custom.key", false⟩, none, []⟩

/-- The `Shipped` type of the specification scenario: prefix capability
returning "evt.", no override, named `Shipped` in package orders. -/
def shippedT : GoType := ⟨"orders.Shipped", none, some ⟨"evt.", true⟩, []⟩

/-- C4: for every value whose type exposes both the key-override
capability (EnvelopeKey) and the key-prefix capability
(EnvelopeKeyPrefix), the derived key equals exactly the string returned
by the override, with no prefix prepended. -/
theorem C4_override_wins (t : GoType) (isPtr : Bool) (flds : List (String × String))
    (k p : String)
    (hover : methodVisible isPtr t.envKey = some k)
    (hpfx : methodVisible isPtr t.envKeyPfx = some p) :
    getKey (.mk t isPtr flds) = some k := by
  simp [getKey, keyOf, hover, hpfx]

theorem C4_override_wins_witness :
    getKey (.mk keyedT true [("Test", "x")]) = some "test" :=
  C4_override_wins keyedT true [("Test", "x")] "test" "prefix." rfl rfl

/-- C5: with only the key-prefix capability visible, the derived key is
the prefix concatenated with the package-qualified type name; with
neither capability, it is the type name alone. -/
theorem C5_pfx_composition (t : GoType) (isPtr : Bool) (flds : List (String × String))
    (p : String)
    (hover : methodVisible isPtr t.envKey = none) :
    (methodVisible isPtr t.envKeyPfx = some p →
      getKey (.mk t isPtr flds) = some (p ++ t.name)) ∧
    (methodVisible isPtr t.envKeyPfx = none →
      getKey (.mk t isPtr flds) = some t.name) := by
  constructor
  · intro hp; simp [getKey, keyOf, hover, hp]
  · intro hp; simp [getKey, keyOf, hover, hp]

theorem C5_pfx_composition_witness :
    getKey (.mk shippedT false []) = some "evt.orders.Shipped" ∧
    getKey (.mk testT false [("Test", "x")]) = some "envelope_test.Test" := by
  constructor
  · exact (C5_pfx_composition shippedT false [] "evt." rfl).1 rfl
  · exact (C5_pfx_composition testT false [("Test", "x")] "" rfl).2 rfl

/-- C3 counterexample: with the `EnvelopeKey` override declared on the
pointer receiver only, the pointer form derives the override string but
the value form derives the type name, so the two keys differ and the
claim fails as stated. -/
theorem C3_counterexample :
    getKey (.mk ptrRecvT true []) = some "custom.key" ∧
    getKey (.mk ptrRecvT false []) = some "pkg.PtrKeyed" ∧
    getKey (.mk ptrRecvT true []) ≠ getKey (.mk ptrRecvT false []) := by
  refine ⟨rfl, rfl, by decide⟩

/-- C3 amended: the pointer form and the value form of a type derive the
identical key whenever each key capability the type declares is declared
with a value receiver (and so sits in the method set of both forms);
registering either form then lets the other form serialize successfully.
With a pointer-receiver capability the two forms may disagree. -/
theorem C3_key_normalization (t : GoType) (b : Bool)
    (fs fs' : List (String × String))
    (hk : t.envKey.all (fun m => m.valRecv) = true)
    (hp : t.envKeyPfx.all (fun m => m.valRecv) = true) :
    getKey (.mk t true fs) = getKey (.mk t false fs') ∧
    (∀ r2 : Registry, NewRegistry.Register [.mk t b fs] = (r2, .ok ()) →
      ∃ env : EnvRec, r2.Serialize (.mk t (!b) fs') = .ok env) := by
  have hkey : keyOf t true = keyOf t false := by
    cases hek : t.envKey with
    | some m =>
      have hv : m.valRecv = true := by rw [hek] at hk; simpa [Option.all] using hk
      simp [keyOf, hek, methodVisible_of_valRecv _ m hv]
    | none =>
      cases hep : t.envKeyPfx with
      | none => simp [keyOf, hek, hep, methodVisible]
      | some m =>
        have hv : m.valRecv = true := by rw [hep] at hp; simpa [Option.all] using hp
        simp [keyOf, hek, hep, methodVisible, hv]
  have hbb : keyOf t (!b) = keyOf t b := by
    cases b
    · simpa using hkey
    · simpa using hkey.symm
  refine ⟨by simpa [getKey] using hkey, ?_⟩
  intro r2 hreg
  have hr2 : r2 = { NewRegistry with factories := [(keyOf t b, .reflectNew t)] } := by
    simp [Registry.Register, Registry.register, NewRegistry, List.lookup] at hreg
    exact hreg.symm
  subst hr2
  refine ⟨⟨keyOf t b, .mk t (!b) fs', .protoOf (some (keyOf t b)) (.jsonOf fs')⟩, ?_⟩
  simp [Registry.Serialize, getKey, hbb, NewRegistry, JsonSerde, ProtoSerde, List.lookup]

theorem C3_key_normalization_witness :
    getKey (.mk keyedT true [("Test", "x")]) = getKey (.mk keyedT false [("Test", "y")]) ∧
    ∃ env : EnvRec,
      Registry.Serialize (NewRegistry.Register [GoVal.mk keyedT true [("Test", "x")]]).1
        (.mk keyedT false [("Test", "y")]) = .ok env := by
  have h := C3_key_normalization keyedT true [("Test", "x")] [("Test", "y")] rfl rfl
  exact ⟨h.1, h.2 (NewRegistry.Register [GoVal.mk keyedT true [("Test", "x")]]).1 rfl⟩

/-- C9 counterexample: the key deriver is not total — on the nil
interface value both capability assertions fail, `reflect.TypeOf(nil)`
returns the nil type descriptor, and `t.Kind()` panics, so no string is
returned. -/
theorem C9_counterexample :
    getKey GoVal.nil = none ∧ ¬ ∃ s : String, getKey GoVal.nil = some s := by
  refine ⟨rfl, ?_⟩
  rintro ⟨s, hs⟩
  exact Option.noConfusion hs

/-- C9 amended: on every non-nil value the key deriver returns a string,
deterministically and depending only on the type descriptor and the
pointer form (never on field contents), and `IsRegistered` then reports
plain table membership; on the nil interface the code panics instead. -/
theorem C9_total_on_concrete (r : Registry) (t : GoType) (isPtr : Bool)
    (fs fs' : List (String × String)) :
    getKey (.mk t isPtr fs) = some (keyOf t isPtr) ∧
    getKey (.mk t isPtr fs) = getKey (.mk t isPtr fs') ∧
    r.IsRegistered (.mk t isPtr fs) =
      .ok ((r.factories.lookup (keyOf t isPtr)).isSome) :=
  ⟨rfl, rfl, rfl⟩

/-- C10: the empty blob is decoded successfully by the protobuf envelope
codec into a message whose key field is unset, and `Deserialize` then
panics dereferencing `msg.Key` instead of returning a typed error,
whatever the table and payload codec are. -/
theorem C10_nil_key_panics (fs : List (String × Factory)) (S : PayloadSerde) :
    ProtoSerde.de Bytes.empty = .ok ⟨none, Bytes.empty⟩ ∧
    Registry.Deserialize ⟨S, ProtoSerde, fs⟩ Bytes.empty = .panicked :=
  ⟨rfl, rfl⟩

/-- The registry obtained by registering the value form of `testT` in a
fresh default registry. -/
def c1reg : Registry := (NewRegistry.Register [GoVal.mk testT false [("Test", "")]]).1

/-- C1 counterexample: register the non-pointer form of `Test`, serialize
a non-pointer value, and deserialize the blob: the recovered payload is
the pointer form of `Test` with the same fields, so it does not have the
same pointer-vs-value form as the original value and the claim fails as
stated. -/
theorem C1_counterexample :
    Registry.Serialize c1reg (GoVal.mk testT false [("Test", "hello")]) =
      .ok ⟨"envelope_test.Test", GoVal.mk testT false [("Test", "hello")],
        .protoOf (some "envelope_test.Test") (.jsonOf [("Test", "hello")])⟩ ∧
    Registry.Deserialize c1reg
        (.protoOf (some "envelope_test.Test") (.jsonOf [("Test", "hello")])) =
      .ok ⟨"envelope_test.Test", GoVal.mk testT true [("Test", "hello")],
        .protoOf (some "envelope_test.Test") (.jsonOf [("Test", "hello")])⟩ ∧
    GoVal.isPtrForm (GoVal.mk testT true [("Test", "hello")]) ≠
      GoVal.isPtrForm (GoVal.mk testT false [("Test", "hello")]) := by
  refine ⟨by decide, by decide, by decide⟩

/-- C1 amended: for every type registered through `Register` and every
value of that type, with the default codecs, deserializing the serialized
blob recovers the derived key, the original wire bytes, and a payload
that is the pointer form of the base concrete type of the value carrying
field-by-field equal content — the pointer-vs-value form of the original
value is not preserved, a non-pointer value coming back as a pointer. -/
theorem C1_roundtrip_content (fs : List (String × Factory)) (t : GoType) (b : Bool)
    (flds : List (String × String))
    (h : fs.lookup (keyOf t b) = some (.reflectNew t)) :
    ∃ env : EnvRec,
      Registry.Serialize ⟨JsonSerde, ProtoSerde, fs⟩ (.mk t b flds) = .ok env ∧
      env.payload = .mk t b flds ∧
      Registry.Deserialize ⟨JsonSerde, ProtoSerde, fs⟩ env.data =
        .ok ⟨keyOf t b, .mk t true flds, env.data⟩ := by
  refine ⟨⟨keyOf t b, .mk t b flds, .protoOf (some (keyOf t b)) (.jsonOf flds)⟩, ?_, rfl, ?_⟩
  · simp [Registry.Serialize, getKey, h, JsonSerde, ProtoSerde]
  · simp [Registry.Deserialize, ProtoSerde, h, JsonSerde, Factory.invoke]

theorem C1_roundtrip_content_witness :
    ∃ env : EnvRec,
      Registry.Serialize ⟨JsonSerde, ProtoSerde, [("envelope_test.Test", .reflectNew testT)]⟩
          (.mk testT false [("Test", "hello")]) = .ok env ∧
      env.payload = .mk testT false [("Test", "hello")] ∧
      Registry.Deserialize ⟨JsonSerde, ProtoSerde, [("envelope_test.Test", .reflectNew testT)]⟩
          env.data =
        .ok ⟨keyOf testT false, .mk testT true [("Test", "hello")], env.data⟩ :=
  C1_roundtrip_content [("envelope_test.Test", .reflectNew testT)] testT false
    [("Test", "hello")] (by decide)

/-- C2 counterexample: registering the non-pointer form of `Test`
succeeds, yet the stored factory builds the pointer form of `Test`
(`reflect.New` always yields a pointer), so the factory does not preserve
the pointer-vs-value form in which the value was passed. -/
theorem C2_counterexample :
    (NewRegistry.Register [GoVal.mk testT false [("Test", "")]]).2 = .ok () ∧
    c1reg.factories.lookup "envelope_test.Test" = some (.reflectNew testT) ∧
    Factory.invoke (.reflectNew testT) = .mk testT true [("Test", "")] ∧
    GoVal.isPtrForm (Factory.invoke (.reflectNew testT)) ≠
      GoVal.isPtrForm (GoVal.mk testT false [("Test", "")]) := by
  refine ⟨by decide, by decide, by decide, by decide⟩

/-- C2 amended: for every value registered through `Register`, the factory
stored under the derived key, when invoked, produces a fresh zero-value
instance that is always the pointer form of the base concrete type of
the value, whether the value was passed in pointer or in value form. -/
theorem C2_factory_always_pointer (r r2 : Registry) (t : GoType) (b : Bool)
    (flds : List (String × String))
    (h : r.Register [.mk t b flds] = (r2, .ok ())) :
    r2.factories.lookup (keyOf t b) = some (.reflectNew t) ∧
    Factory.invoke (.reflectNew t) = .mk t true t.zero ∧
    GoVal.isPtrForm (Factory.invoke (.reflectNew t)) = true := by
  refine ⟨?_, rfl, rfl⟩
  cases hreg : r.register (keyOf t b) (.reflectNew t) with
  | error e => simp [Registry.Register, hreg] at h
  | ok r' =>
    simp [Registry.Register, hreg] at h
    obtain ⟨hlk, hr'⟩ := register_ok_elim r _ _ _ hreg
    rw [← h, hr']
    exact lookup_append_self _ _ _ hlk

theorem C2_factory_always_pointer_witness :
    c1reg.factories.lookup (keyOf testT false) = some (.reflectNew testT) ∧
    Factory.invoke (.reflectNew testT) = .mk testT true testT.zero :=
  ⟨(C2_factory_always_pointer NewRegistry c1reg testT false [("Test", "")] rfl).1,
    (C2_factory_always_pointer NewRegistry c1reg testT false [("Test", "")] rfl).2.1⟩

/-- C7: with the derived key absent from the table, `Serialize` fails
with `ErrUnregisteredKey` whatever the two codecs are (so neither can
have been invoked); `Build` on an absent key fails likewise; and when the
envelope codec decodes a blob to a key absent from the table,
`Deserialize` fails with `ErrUnregisteredKey` whatever the payload codec
is. -/
theorem C7_unknown_key (fs : List (String × Factory)) (S : PayloadSerde) (E : EnvSerde)
    (v : GoVal) (k k2 : String) (blob : Bytes) (m : EnvelopeMsg)
    (hv : getKey v = some k) (hm1 : fs.lookup k = none)
    (hE : E.de blob = .ok m) (hk2 : m.key = some k2) (hm2 : fs.lookup k2 = none) :
    Registry.Serialize ⟨S, E, fs⟩ v = .err (.unregisteredKey k) ∧
    Registry.Build ⟨S, E, fs⟩ k = .error (.unregisteredKey k) ∧
    Registry.Deserialize ⟨S, E, fs⟩ blob = .err (.unregisteredKey k2) := by
  refine ⟨?_, ?_, ?_⟩
  · simp [Registry.Serialize, hv, hm1]
  · simp [Registry.Build, hm1]
  · simp [Registry.Deserialize, hE, hk2, hm2]

theorem C7_unknown_key_witness :
    Registry.Serialize ⟨JsonSerde, ProtoSerde, []⟩ (.mk testT false [("Test", "x")]) =
      .err (.unregisteredKey "envelope_test.Test") ∧
    Registry.Build ⟨JsonSerde, ProtoSerde, []⟩ "envelope_test.Test" =
      .error (.unregisteredKey "envelope_test.Test") ∧
    Registry.Deserialize ⟨JsonSerde, ProtoSerde, []⟩
        (.protoOf (some "missing.Key") .empty) =
      .err (.unregisteredKey "missing.Key") :=
  C7_unknown_key [] JsonSerde ProtoSerde (.mk testT false [("Test", "x")])
    "envelope_test.Test" "missing.Key" (.protoOf (some "missing.Key") .empty)
    ⟨some "missing.Key", .empty⟩ rfl rfl rfl rfl rfl

/-- C8: a factory whose invocation yields the nil interface makes
`RegisterFactory` fail with `ErrFactoryReturnsNil`, and one whose sample
instance is not in pointer form makes it fail with
`ErrFactoryDoesNotReturnPointer`; in both cases the final table is the
one left by the earlier factories of the batch, with no entry added for
the failing factory. -/
theorem C8_factory_failures (r r1 : Registry) (gs hs : List Factory) (g : Factory)
    (hgs : r.RegisterFactory gs = (r1, .ok ())) :
    (g.invoke = .nil →
      r.RegisterFactory (gs ++ g :: hs) = (r1, .err (.factoryReturnsNil ""))) ∧
    (∀ (t : GoType) (flds : List (String × String)), g.invoke = .mk t false flds →
      r.RegisterFactory (gs ++ g :: hs) =
        (r1, .err (.factoryDoesNotReturnPointer (keyOf t false)))) := by
  have happ := RegisterFactory_append gs r r1 (g :: hs) hgs
  constructor
  · intro hg; rw [happ]; simp [Registry.RegisterFactory, hg]
  · intro t flds hg; rw [happ]; simp [Registry.RegisterFactory, hg]

theorem C8_factory_failures_witness :
    Registry.RegisterFactory NewRegistry [Factory.user GoVal.nil] =
      (NewRegistry, .err (.factoryReturnsNil "")) ∧
    Registry.RegisterFactory NewRegistry [Factory.user (.mk testT false [("Test", "")])] =
      (NewRegistry, .err (.factoryDoesNotReturnPointer "envelope_test.Test")) := by
  constructor
  · exact (C8_factory_failures NewRegistry NewRegistry [] []
      (Factory.user GoVal.nil) rfl).1 rfl
  · have h := (C8_factory_failures NewRegistry NewRegistry [] []
      (Factory.user (.mk testT false [("Test", "")])) rfl).2 testT [("Test", "")] rfl
    have hk : keyOf testT false = "envelope_test.Test" := by decide
    rw [hk] at h
    exact h

/-- C6: in a batch handed to `Register` or to `RegisterFactory`, an item
deriving a key already present makes the call return `ErrReregisteredKey`
for that key; the resulting table is exactly the one built by the earlier
items (earlier insertions committed, the existing entry untouched, later
items never attempted), and it holds exactly one entry for the duplicated
key. -/
theorem C6_duplicate_key (r r1 rf rf1 : Registry) (us ws : List GoVal)
    (gs hs : List Factory) (g : Factory) (t t2 : GoType) (b : Bool)
    (flds flds2 : List (String × String)) (f f2 : Factory)
    (hnd : (keysOf r).Nodup)
    (hus : r.Register us = (r1, .ok ()))
    (hdup : r1.factories.lookup (keyOf t b) = some f)
    (hndf : (keysOf rf).Nodup)
    (hgs : rf.RegisterFactory gs = (rf1, .ok ()))
    (hg : g.invoke = .mk t2 true flds2)
    (hdup2 : rf1.factories.lookup (keyOf t2 true) = some f2) :
    (r.Register (us ++ .mk t b flds :: ws) =
        (r1, .err (.reregisteredKey (keyOf t b))) ∧
      (keysOf r1).count (keyOf t b) = 1) ∧
    (rf.RegisterFactory (gs ++ g :: hs) =
        (rf1, .err (.reregisteredKey (keyOf t2 true))) ∧
      (keysOf rf1).count (keyOf t2 true) = 1) := by
  have h1 := Register_append us r r1 (.mk t b flds :: ws) hus
  have hnd1 := Register_preserves_nodup us r r1 (.ok ()) hus hnd
  have h2 := RegisterFactory_append gs rf rf1 (g :: hs) hgs
  have hnd2 := RegisterFactory_preserves_nodup gs rf rf1 (.ok ()) hgs hndf
  refine ⟨⟨?_, ?_⟩, ?_, ?_⟩
  · rw [h1]; simp [Registry.Register, Registry.register, hdup]
  · exact List.count_eq_one_of_mem hnd1 (mem_of_lookup_some _ _ _ hdup)
  · rw [h2]; simp [Registry.RegisterFactory, hg, Registry.register, hdup2]
  · exact List.count_eq_one_of_mem hnd2 (mem_of_lookup_some _ _ _ hdup2)

theorem C6_duplicate_key_witness :
    (NewRegistry.Register
        [GoVal.mk testT false [("Test", "")], GoVal.mk testT true [("Test", "z")]] =
      (c1reg, .err (.reregisteredKey (keyOf testT true))) ∧
      (keysOf c1reg).count (keyOf testT true) = 1) ∧
    (NewRegistry.RegisterFactory
        [Factory.user (GoVal.mk testT true [("Test", "a")]),
          Factory.user (GoVal.mk testT true [("Test", "b")])] =
      ((NewRegistry.RegisterFactory [Factory.user (GoVal.mk testT true [("Test", "a")])]).1,
        .err (.reregisteredKey (keyOf testT true))) ∧
      (keysOf (NewRegistry.RegisterFactory
        [Factory.user (GoVal.mk testT true [("Test", "a")])]).1).count (keyOf testT true) = 1) := by
  have h := C6_duplicate_key NewRegistry c1reg NewRegistry
    (NewRegistry.RegisterFactory [Factory.user (GoVal.mk testT true [("Test", "a")])]).1
    [GoVal.mk testT false [("Test", "")]] []
    [Factory.user (GoVal.mk testT true [("Test", "a")])] []
    (Factory.user (GoVal.mk testT true [("Test", "b")]))
    testT testT true [("Test", "z")] [("Test", "b")]
    (.reflectNew testT) (Factory.user (GoVal.mk testT true [("Test", "a")]))
    (by decide) rfl (by decide) (by decide) rfl rfl (by decide)
  exact h

end EnvelopeRepo
